import Mathlib

/-!
Shallow embedding of `src/pyme/PymeImage.py`.

The repository wraps Pillow (`PIL`) images.  The embedding models a raster
image as its dimensions, a colour mode and a total pixel function; the
Pillow primitives the code delegates to (`Image.new`, `Image.paste`,
`Image.resize`, `Image.copy`) are modelled from their documented semantics:

* `Image.paste(im, box, mask)` with `mask = im` (an RGBA image) blends each
  band of `im` over the background weighted by the alpha band of `im`,
  using the rounding-exact MULDIV255 kernel of the Pillow C sources; when
  the mask image carries no alpha band (mode RGB) the call raises
  `ValueError("bad transparency mask")`.
* `Image.resize` returns a fresh image of the requested dimensions; the
  resampled pixel contents are irrelevant to every claim, and are modelled
  here by nearest-neighbour lookup.  The `resample`, `box` and
  `reducing_gap` arguments only influence that resampled content, so they
  are folded into this model.
* Python float arithmetic (the `size[0] / width` quotients and fractional
  bounding boxes) is modelled by exact rational arithmetic, and the Python
  `int(...)` conversion by truncation toward zero.
* Python `//` is floor division, modelled by `Int.fdiv`.
-/

/-- One RGBA pixel.  Channels are naturals; meaningful values lie in
`0..255`. -/
structure Pixel where
  r : ℕ
  g : ℕ
  b : ℕ
  a : ℕ
deriving DecidableEq, Repr

/-- The fully opaque white pixel `(255, 255, 255, 255)` used for padding
backgrounds. -/
def Pixel.white : Pixel := ⟨255, 255, 255, 255⟩

/-- The fully transparent pixel `(0, 0, 0, 0)`. -/
def Pixel.clear : Pixel := ⟨0, 0, 0, 0⟩

/-- A pixel whose four channels all lie in the byte range. -/
def Pixel.inRange (p : Pixel) : Prop :=
  p.r ≤ 255 ∧ p.g ≤ 255 ∧ p.b ≤ 255 ∧ p.a ≤ 255

instance (p : Pixel) : Decidable p.inRange := by
  unfold Pixel.inRange; infer_instance

/-- Pillow colour modes relevant to the code: content either carries an
alpha band (`RGBA`) or does not (`RGB`). -/
inductive Mode where
  | RGB
  | RGBA
deriving DecidableEq, Repr

/-- Model of a Pillow raster image: dimensions, mode and a total pixel
function (only the values at coordinates below the dimensions are
meaningful). -/
structure PImage where
  width : ℕ
  height : ℕ
  mode : Mode
  pix : ℕ → ℕ → Pixel

/-- The rounding-exact division by 255 used by the Pillow C blending code:
`MULDIV255(a, c) = ((t >> 8) + t) >> 8` with `t = a * c + 128`. -/
def muldiv255 (a c : ℕ) : ℕ :=
  ((a * c + 128) / 256 + (a * c + 128)) / 256

/-- Alpha blending of a foreground pixel over a background pixel, weighted
by the alpha band of the foreground (the mask in a self-masked paste). -/
def blend (fg bg : Pixel) : Pixel :=
  ⟨muldiv255 fg.a fg.r + muldiv255 (255 - fg.a) bg.r,
   muldiv255 fg.a fg.g + muldiv255 (255 - fg.a) bg.g,
   muldiv255 fg.a fg.b + muldiv255 (255 - fg.a) bg.b,
   muldiv255 fg.a fg.a + muldiv255 (255 - fg.a) bg.a⟩

/-- `Image.new("RGBA", (w, h), (255, 255, 255, 255))`: an opaque white
RGBA buffer. -/
def whiteImage (w h : ℕ) : PImage :=
  ⟨w, h, Mode.RGBA, fun _ _ => Pixel.white⟩

/-- `bg.paste(fg, (dx, dy), mask)`: overwrite the region of `bg` covered by
`fg` placed at offset `(dx, dy)` (Pillow crops parts that fall outside
`bg`).  With `masked = true` the foreground is blended over the background
using its own alpha band; otherwise it replaces the background. -/
def pasteRegion (bg fg : PImage) (dx dy : ℤ) (masked : Bool) : PImage :=
  { width := bg.width
    height := bg.height
    mode := bg.mode
    pix := fun x y =>
      if dx ≤ (x : ℤ) ∧ (x : ℤ) < dx + fg.width ∧ dy ≤ (y : ℤ) ∧ (y : ℤ) < dy + fg.height then
        let s := fg.pix ((x : ℤ) - dx).toNat ((y : ℤ) - dy).toNat
        if masked then blend s (bg.pix x y) else s
      else bg.pix x y }

/-- `bg.paste(fg, (dx, dy), fg)`: the self-masked paste.  Pillow raises
`ValueError("bad transparency mask")` when the mask (here `fg` itself)
carries no alpha band, i.e. when its mode is RGB. -/
def pasteMaskedE (bg fg : PImage) (dx dy : ℤ) : Except Unit PImage :=
  if fg.mode = Mode.RGBA then
    Except.ok (pasteRegion bg fg dx dy true)
  else
    Except.error ()

/-- The paste offset of `add_padding`: `paste_coords[i]` is set to the
argument only when it is positive (lines 69-74). -/
def pasteShift (v : ℤ) : ℕ :=
  if 0 < v then v.toNat else 0

/-- The extra growth of `add_padding` on one axis: `right - width` when
`right` exceeds the current extent, nothing otherwise (lines 75-78). -/
def grow (cur : ℕ) (v : ℤ) : ℕ :=
  if (cur : ℤ) < v then (v - cur).toNat else 0

/-- `new_size[0]` of `add_padding`: the width grows by `left` when
`left > 0` and by `right - width` when `right > width`. -/
def newWidth (img : PImage) (left right : ℤ) : ℕ :=
  img.width + pasteShift left + grow img.width right

/-- `new_size[1]` of `add_padding`, symmetric to `newWidth`. -/
def newHeight (img : PImage) (top bottom : ℤ) : ℕ :=
  img.height + pasteShift top + grow img.height bottom

/-- `PymeImage.add_padding(left, top, right, bottom)` (lines 52-82).
Returns the new canvas buffer, or an error when the internal self-masked
paste raises (canvas without an alpha band).  The guard
`not any([left, top, right, bottom])` skips the body exactly when all four
arguments are zero (Python truthiness). -/
def add_padding (img : PImage) (left top right bottom : ℤ) : Except Unit PImage :=
  if left = 0 ∧ top = 0 ∧ right = 0 ∧ bottom = 0 then
    Except.ok img
  else if img.mode = Mode.RGBA then
    Except.ok (pasteRegion (whiteImage (newWidth img left right) (newHeight img top bottom))
      img (pasteShift left) (pasteShift top) true)
  else
    Except.error ()

/-- The canvas held by the wrapper after an `add_padding` call: on a raised
`ValueError` the assignment `self._image = background` never runs, so the
canvas is unchanged. -/
def paddedCanvas (img : PImage) (left top right bottom : ℤ) : PImage :=
  match add_padding img left top right bottom with
  | Except.ok out => out
  | Except.error _ => img

/-- An integer bounding box `(left, top, right, bottom)`. -/
structure BoxI where
  l : ℤ
  t : ℤ
  r : ℤ
  b : ℤ
deriving DecidableEq, Repr

/-- `PymeImage._center_image(bbox)` (lines 33-50) for an image of
dimensions `w × h`: the box inside `box` that centres the image, using
Python floor division. -/
def center_image (w h : ℕ) (box : BoxI) : BoxI :=
  let wb := box.r - box.l
  let hb := box.b - box.t
  ⟨box.l + Int.fdiv (wb - w) 2,
   box.t + Int.fdiv (hb - h) 2,
   box.l + Int.fdiv (wb + w) 2,
   box.t + Int.fdiv (hb + h) 2⟩

/-- Python `int(...)` applied to a rational value: truncation toward
zero. -/
def pyTrunc (q : ℚ) : ℤ :=
  if 0 ≤ q then ⌊q⌋ else -⌊-q⌋

/-- The `keep_ratio` branch of `PymeImage.resize` (lines 187-201): the pair
`(int(width * quotient), int(height * quotient))` for the smaller of the two
quotients `size[0] / width` and `size[1] / height`. -/
def keepRatioSize (w h : ℕ) (s0 s1 : ℤ) : ℤ × ℤ :=
  let wq : ℚ := (s0 : ℚ) / (w : ℚ)
  let hq : ℚ := (s1 : ℚ) / (h : ℚ)
  if wq < hq then
    (pyTrunc ((w : ℚ) * wq), pyTrunc ((h : ℚ) * wq))
  else
    (pyTrunc ((w : ℚ) * hq), pyTrunc ((h : ℚ) * hq))

/-- `PIL.Image.resize`: a fresh image of the requested dimensions.  The
resampled pixel content is modelled by nearest-neighbour lookup; no claim
depends on it. -/
def imageResize (img : PImage) (w h : ℕ) : PImage :=
  ⟨w, h, img.mode, fun x y => img.pix (x * img.width / w) (y * img.height / h)⟩

/-- The `PymeImage` wrapper object: a mutable cell holding the wrapped
image, threaded explicitly. -/
structure Pyme where
  _image : PImage

/-- `PymeImage.resize(size, ..., keep_ratio)` (lines 165-204): updates the
wrapper with the resized image and returns the wrapper.  Negative target
components never occur in the claims; Pillow would reject them, and the
model clamps them with `Int.toNat`. -/
def Pyme.resize (p : Pyme) (size : ℤ × ℤ) (keepAspect : Bool) : Pyme :=
  if keepAspect then
    let s := keepRatioSize p._image.width p._image.height size.1 size.2
    ⟨imageResize p._image s.1.toNat s.2.toNat⟩
  else
    ⟨imageResize p._image size.1.toNat size.2.toNat⟩

/-- A Python number appearing in a bounding box: an `int` or a `float`
(floats modelled by exact rationals). -/
inductive PyNum where
  | intVal (z : ℤ)
  | floatVal (q : ℚ)
deriving DecidableEq

/-- `isinstance(n, float)`. -/
def PyNum.isFloat : PyNum → Bool
  | PyNum.intVal _ => false
  | PyNum.floatVal _ => true

/-- The numeric value of a bounding-box entry. -/
def PyNum.toQ : PyNum → ℚ
  | PyNum.intVal z => (z : ℚ)
  | PyNum.floatVal q => q

/-- Lines 101-108 of `draw_image`: when the first entry of the box is a
float the whole box is rescaled by the canvas dimensions and truncated with
`int(...)`; otherwise the entries are used as they are (integer entries are
fixed points of `pyTrunc`; the spec treats boxes as homogeneous in type). -/
def scaleBBox (w h : ℕ) (n0 n1 n2 n3 : PyNum) : BoxI :=
  if n0.isFloat then
    ⟨pyTrunc (n0.toQ * w), pyTrunc (n1.toQ * h), pyTrunc (n2.toQ * w), pyTrunc (n3.toQ * h)⟩
  else
    ⟨pyTrunc n0.toQ, pyTrunc n1.toQ, pyTrunc n2.toQ, pyTrunc n3.toQ⟩

/-- The errors the wrapper can surface: the explicit
`ValueError("Bounding box requires 4 arguments")` validation, and the
`ValueError("bad transparency mask")` passed through from Pillow. -/
inductive PymeErr where
  | invalidArgument
  | badTransparencyMask
deriving DecidableEq, Repr

/-- Line 111 of `draw_image`: the condition under which the canvas is
padded before drawing. -/
def needs_padding (canvas : PImage) (box : BoxI) : Prop :=
  box.l < 0 ∨ box.t < 0 ∨ (canvas.width : ℤ) < box.r ∨ (canvas.height : ℤ) < box.b

instance (canvas : PImage) (box : BoxI) : Decidable (needs_padding canvas box) := by
  unfold needs_padding; infer_instance

/-- Line 120 of `draw_image`: the content is wrapped in a fresh `PymeImage`
and resized with `keep_ratio=True` to the box dimensions
`(right - left, bottom - top)`. -/
def drawResized (content : PImage) (box : BoxI) : PImage :=
  ((Pyme.mk content).resize (box.r - box.l, box.b - box.t) true)._image

/-- Lines 123-129 of `draw_image`: clamp negative left/top to zero, keep
right/bottom, and centre the resized content inside that box. -/
def pasteBox (resized : PImage) (box : BoxI) : BoxI :=
  center_image resized.width resized.height
    ⟨if 0 < box.l then box.l else 0, if 0 < box.t then box.t else 0, box.r, box.b⟩

/-- Lines 130-133 of `draw_image`: try the self-masked paste; on a
`ValueError` retry once without a mask. -/
def pasteStep (canvas1 resized : PImage) (dx dy : ℤ) : PImage :=
  match pasteMaskedE canvas1 resized dx dy with
  | Except.ok out => out
  | Except.error _ => pasteRegion canvas1 resized dx dy false

/-- Lines 114-133 of `draw_image` after the padding stage: resize the
content, centre it, paste it. -/
def drawRest (canvas1 content : PImage) (box : BoxI) : PImage :=
  pasteStep canvas1 (drawResized content box) (pasteBox (drawResized content box) box).l
    (pasteBox (drawResized content box) box).t

/-- `PymeImage.draw_image(image, bbox)` (lines 84-133).  The canvas is the
wrapped image of `self`; the result pairs the new canvas with the state of
the caller-supplied content object after the call (the code reads the
content, wraps it in a fresh `PymeImage` and resizes through that fresh
wrapper, so no write ever targets the caller's object). -/
def draw_image (canvas : PImage) (content : Pyme) (bbox : List PyNum) :
    Except PymeErr (PImage × Pyme) :=
  match bbox with
  | [n0, n1, n2, n3] =>
    let box := scaleBBox canvas.width canvas.height n0 n1 n2 n3
    if needs_padding canvas box then
      match add_padding canvas (box.l.natAbs : ℤ) (box.t.natAbs : ℤ) box.r box.b with
      | Except.ok canvas1 => Except.ok (drawRest canvas1 content._image box, content)
      | Except.error _ => Except.error PymeErr.badTransparencyMask
    else
      Except.ok (drawRest canvas content._image box, content)
  | _ => Except.error PymeErr.invalidArgument

/-- `PymeImage.draw_text(text, bbox)` (lines 135-163).  The font loading,
measurement and glyph rendering are delegated to Pillow and modelled by the
`measure` and `render` parameters; the rendered surface is an RGBA buffer
of the measured size, handed to `draw_image` with the same box. -/
def draw_text (measure : String → ℕ × ℕ) (render : String → ℕ → ℕ → Pixel)
    (canvas : PImage) (text : String) (bbox : List PyNum) : Except PymeErr PImage :=
  match bbox with
  | [n0, n1, n2, n3] =>
    let surface : PImage := ⟨(measure text).1, (measure text).2, Mode.RGBA, render text⟩
    (draw_image canvas (Pyme.mk surface) [n0, n1, n2, n3]).map Prod.fst
  | _ => Except.error PymeErr.invalidArgument

/-- The canvas after the padding stage of `draw_image` (lines 110-112):
padded with `(abs(left), abs(top), right, bottom)` when some edge falls
outside the canvas, untouched otherwise. -/
def drawCanvas1 (canvas : PImage) (box : BoxI) : PImage :=
  if needs_padding canvas box then
    paddedCanvas canvas (box.l.natAbs : ℤ) (box.t.natAbs : ℤ) box.r box.b
  else canvas

theorem pyTrunc_intCast (z : ℤ) : pyTrunc (z : ℚ) = z := by
  unfold pyTrunc
  split
  · exact Int.floor_intCast z
  · rw [show (-(z : ℚ)) = ((-z : ℤ) : ℚ) by push_cast; ring, Int.floor_intCast]
    ring

theorem pyTrunc_eq_floor {q : ℚ} (h : 0 ≤ q) : pyTrunc q = ⌊q⌋ := if_pos h

theorem pyTrunc_nonneg {q : ℚ} (h : 0 ≤ q) : 0 ≤ pyTrunc q := by
  rw [pyTrunc_eq_floor h]
  exact Int.floor_nonneg.mpr h

theorem pyTrunc_lt_of_lt {q : ℚ} {n : ℤ} (h0 : 0 ≤ q) (h : q < (n : ℚ)) :
    pyTrunc q < n := by
  rw [pyTrunc_eq_floor h0]
  exact Int.floor_lt.mpr h

theorem pyTrunc_le_of_le {q : ℚ} {n : ℤ} (h0 : 0 ≤ q) (h : q ≤ (n : ℚ)) :
    pyTrunc q ≤ n := by
  rw [pyTrunc_eq_floor h0]
  calc ⌊q⌋ ≤ ⌊(n : ℚ)⌋ := Int.floor_le_floor h
    _ = n := Int.floor_intCast n

/-- Full characterisation of the `keep_ratio` size computation: both
dimensions are scaled by the smaller quotient, the result fits inside the
requested size, and the axis of the smaller quotient matches it exactly. -/
theorem keepRatioSize_spec (w h : ℕ) (s0 s1 : ℤ)
    (hw : 0 < w) (hh : 0 < h) (h0 : 0 < s0) (h1 : 0 < s1) :
    (keepRatioSize w h s0 s1).1 ≤ s0 ∧
    (keepRatioSize w h s0 s1).2 ≤ s1 ∧
    ((keepRatioSize w h s0 s1).1 = s0 ∨ (keepRatioSize w h s0 s1).2 = s1) ∧
    0 ≤ (keepRatioSize w h s0 s1).1 ∧ 0 ≤ (keepRatioSize w h s0 s1).2 ∧
    (keepRatioSize w h s0 s1).1
      = pyTrunc ((w : ℚ) * min ((s0 : ℚ) / w) ((s1 : ℚ) / h)) ∧
    (keepRatioSize w h s0 s1).2
      = pyTrunc ((h : ℚ) * min ((s0 : ℚ) / w) ((s1 : ℚ) / h)) ∧
    ((s0 : ℚ) / w = (s1 : ℚ) / h →
      (keepRatioSize w h s0 s1).1 = s0 ∧ (keepRatioSize w h s0 s1).2 = s1) := by
  have hwq : (0 : ℚ) < (w : ℚ) := by exact_mod_cast hw
  have hhq : (0 : ℚ) < (h : ℚ) := by exact_mod_cast hh
  have h0q : (0 : ℚ) < (s0 : ℚ) := by exact_mod_cast h0
  have h1q : (0 : ℚ) < (s1 : ℚ) := by exact_mod_cast h1
  have hww : (w : ℚ) * ((s0 : ℚ) / w) = (s0 : ℚ) := by
    field_simp
  have hhh : (h : ℚ) * ((s1 : ℚ) / h) = (s1 : ℚ) := by
    field_simp
  unfold keepRatioSize
  dsimp only
  split
  case isTrue hlt =>
    have hmin : min ((s0 : ℚ) / w) ((s1 : ℚ) / h) = (s0 : ℚ) / w :=
      min_eq_left (le_of_lt hlt)
    have hfst : pyTrunc ((w : ℚ) * ((s0 : ℚ) / w)) = s0 := by
      rw [hww]; exact pyTrunc_intCast s0
    have hpos2 : (0 : ℚ) ≤ (h : ℚ) * ((s0 : ℚ) / w) := by positivity
    have hlt2 : (h : ℚ) * ((s0 : ℚ) / w) < (s1 : ℚ) := by
      calc (h : ℚ) * ((s0 : ℚ) / w) < (h : ℚ) * ((s1 : ℚ) / h) :=
            mul_lt_mul_of_pos_left hlt hhq
        _ = (s1 : ℚ) := hhh
    refine ⟨le_of_eq hfst, ?_, Or.inl hfst, ?_, ?_, ?_, ?_, ?_⟩
    · exact le_of_lt (pyTrunc_lt_of_lt hpos2 hlt2)
    · rw [hfst]; exact le_of_lt h0
    · exact pyTrunc_nonneg hpos2
    · rw [hmin]
    · rw [hmin]
    · intro heq; exact absurd heq (ne_of_lt hlt)
  case isFalse hge =>
    have hle : (s1 : ℚ) / h ≤ (s0 : ℚ) / w := le_of_not_lt hge
    have hmin : min ((s0 : ℚ) / w) ((s1 : ℚ) / h) = (s1 : ℚ) / h :=
      min_eq_right hle
    have hsnd : pyTrunc ((h : ℚ) * ((s1 : ℚ) / h)) = s1 := by
      rw [hhh]; exact pyTrunc_intCast s1
    have hpos1 : (0 : ℚ) ≤ (w : ℚ) * ((s1 : ℚ) / h) := by positivity
    have hle1 : (w : ℚ) * ((s1 : ℚ) / h) ≤ (s0 : ℚ) := by
      calc (w : ℚ) * ((s1 : ℚ) / h) ≤ (w : ℚ) * ((s0 : ℚ) / w) :=
            mul_le_mul_of_nonneg_left hle (le_of_lt hwq)
        _ = (s0 : ℚ) := hww
    refine ⟨pyTrunc_le_of_le hpos1 hle1, le_of_eq hsnd, Or.inr hsnd, ?_, ?_, ?_, ?_, ?_⟩
    · exact pyTrunc_nonneg hpos1
    · rw [hsnd]; exact le_of_lt h1
    · rw [hmin]
    · rw [hmin]
    · intro heq
      constructor
      · show pyTrunc ((w : ℚ) * ((s1 : ℚ) / h)) = s0
        rw [← heq, hww]
        exact pyTrunc_intCast s0
      · exact hsnd

set_option maxRecDepth 8192 in
theorem muldiv255_full : ∀ c, c ≤ 255 → muldiv255 255 c = c := by decide

theorem muldiv255_zero (c : ℕ) : muldiv255 0 c = 0 := by
  unfold muldiv255
  rw [Nat.zero_mul]

/-- A fully opaque foreground pixel blends to itself. -/
theorem blend_opaque (fg bg : Pixel) (ha : fg.a = 255) (hr : fg.inRange) :
    blend fg bg = fg := by
  obtain ⟨h1, h2, h3, h4⟩ := hr
  unfold blend
  rw [ha]
  simp only [Nat.sub_self, muldiv255_zero, Nat.add_zero]
  rw [muldiv255_full _ h1, muldiv255_full _ h2, muldiv255_full _ h3,
    muldiv255_full _ (le_refl 255)]
  cases fg
  simp_all

/-- A fully transparent foreground pixel leaves the background pixel. -/
theorem blend_clear (fg bg : Pixel) (ha : fg.a = 0) (hbg : bg.inRange) :
    blend fg bg = bg := by
  obtain ⟨h1, h2, h3, h4⟩ := hbg
  unfold blend
  rw [ha]
  simp only [muldiv255_zero, Nat.zero_add, Nat.sub_zero]
  rw [muldiv255_full _ h1, muldiv255_full _ h2, muldiv255_full _ h3,
    muldiv255_full _ h4]

theorem whitePixel_inRange : Pixel.white.inRange := by decide

/-- With an RGBA canvas, `add_padding` never raises and the wrapper ends
up holding `paddedCanvas`. -/
theorem add_padding_eq_ok (img : PImage) (l t r b : ℤ)
    (hmode : img.mode = Mode.RGBA) :
    add_padding img l t r b = Except.ok (paddedCanvas img l t r b) := by
  unfold paddedCanvas
  rcases hcase : add_padding img l t r b with e | out
  · exfalso
    unfold add_padding at hcase
    split at hcase <;> simp_all
  · rfl

/-- Evaluation of `add_padding` outside the no-op guard on an RGBA
canvas. -/
theorem add_padding_eval (img : PImage) (l t r b : ℤ)
    (hmode : img.mode = Mode.RGBA) (hnz : ¬(l = 0 ∧ t = 0 ∧ r = 0 ∧ b = 0)) :
    add_padding img l t r b =
      Except.ok
        (pasteRegion (whiteImage (newWidth img l r) (newHeight img t b))
          img (pasteShift l) (pasteShift t) true) := by
  unfold add_padding
  rw [if_neg hnz, if_pos hmode]

theorem paddedCanvas_eval (img : PImage) (l t r b : ℤ)
    (hmode : img.mode = Mode.RGBA) (hnz : ¬(l = 0 ∧ t = 0 ∧ r = 0 ∧ b = 0)) :
    paddedCanvas img l t r b =
      pasteRegion (whiteImage (newWidth img l r) (newHeight img t b))
        img (pasteShift l) (pasteShift t) true := by
  have h := add_padding_eval img l t r b hmode hnz
  have h2 := add_padding_eq_ok img l t r b hmode
  rw [h] at h2
  exact (Except.ok.inj h2).symm

theorem pasteRegion_width (bg fg : PImage) (dx dy : ℤ) (m : Bool) :
    (pasteRegion bg fg dx dy m).width = bg.width := rfl

theorem pasteRegion_height (bg fg : PImage) (dx dy : ℤ) (m : Bool) :
    (pasteRegion bg fg dx dy m).height = bg.height := rfl

theorem pasteRegion_mode (bg fg : PImage) (dx dy : ℤ) (m : Bool) :
    (pasteRegion bg fg dx dy m).mode = bg.mode := rfl

theorem pasteStep_width (c1 resized : PImage) (dx dy : ℤ) :
    (pasteStep c1 resized dx dy).width = c1.width := by
  unfold pasteStep pasteMaskedE
  by_cases hm : resized.mode = Mode.RGBA
  · rw [if_pos hm]
    rfl
  · rw [if_neg hm]
    rfl

theorem pasteStep_height (c1 resized : PImage) (dx dy : ℤ) :
    (pasteStep c1 resized dx dy).height = c1.height := by
  unfold pasteStep pasteMaskedE
  by_cases hm : resized.mode = Mode.RGBA
  · rw [if_pos hm]
    rfl
  · rw [if_neg hm]
    rfl

theorem drawRest_width (c1 content : PImage) (box : BoxI) :
    (drawRest c1 content box).width = c1.width :=
  pasteStep_width _ _ _ _

theorem drawRest_height (c1 content : PImage) (box : BoxI) :
    (drawRest c1 content box).height = c1.height :=
  pasteStep_height _ _ _ _

/-- With an RGBA canvas, `draw_image` on a 4-element box always succeeds,
returning the padded canvas with the content drawn on it, and handing the
caller back an untouched content object. -/
theorem draw_image_eq (canvas : PImage) (content : Pyme) (n0 n1 n2 n3 : PyNum)
    (hmode : canvas.mode = Mode.RGBA) :
    draw_image canvas content [n0, n1, n2, n3] =
      Except.ok
        (drawRest (drawCanvas1 canvas (scaleBBox canvas.width canvas.height n0 n1 n2 n3))
          content._image (scaleBBox canvas.width canvas.height n0 n1 n2 n3), content) := by
  unfold draw_image drawCanvas1
  dsimp only
  split
  case isTrue hpad =>
    rw [add_padding_eq_ok _ _ _ _ _ hmode]
  case isFalse hpad =>
    rfl

theorem pasteShift_cast (v : ℤ) : (pasteShift v : ℤ) = if 0 < v then v else 0 := by
  unfold pasteShift
  split
  · next hv => exact Int.toNat_of_nonneg (le_of_lt hv)
  · rfl

theorem grow_cast (c : ℕ) (v : ℤ) : (grow c v : ℤ) = if (c : ℤ) < v then v - c else 0 := by
  unfold grow
  split
  · next hv => exact Int.toNat_of_nonneg (by omega)
  · rfl

theorem paddedCanvas_width (img : PImage) (l t r b : ℤ)
    (hmode : img.mode = Mode.RGBA) :
    (paddedCanvas img l t r b).width = newWidth img l r := by
  by_cases hz : (l = 0 ∧ t = 0 ∧ r = 0 ∧ b = 0)
  · obtain ⟨h1, h2, h3, h4⟩ := hz
    subst h1; subst h2; subst h3; subst h4
    have hnoop : paddedCanvas img 0 0 0 0 = img := by
      unfold paddedCanvas add_padding
      rw [if_pos ⟨rfl, rfl, rfl, rfl⟩]
    rw [hnoop]
    unfold newWidth pasteShift grow
    simp
  · rw [paddedCanvas_eval img l t r b hmode hz]
    rfl

theorem paddedCanvas_height (img : PImage) (l t r b : ℤ)
    (hmode : img.mode = Mode.RGBA) :
    (paddedCanvas img l t r b).height = newHeight img t b := by
  by_cases hz : (l = 0 ∧ t = 0 ∧ r = 0 ∧ b = 0)
  · obtain ⟨h1, h2, h3, h4⟩ := hz
    subst h1; subst h2; subst h3; subst h4
    have hnoop : paddedCanvas img 0 0 0 0 = img := by
      unfold paddedCanvas add_padding
      rw [if_pos ⟨rfl, rfl, rfl, rfl⟩]
    rw [hnoop]
    unfold newHeight pasteShift grow
    simp
  · rw [paddedCanvas_eval img l t r b hmode hz]
    rfl

theorem paddedCanvas_mode (img : PImage) (l t r b : ℤ)
    (hmode : img.mode = Mode.RGBA) :
    (paddedCanvas img l t r b).mode = Mode.RGBA := by
  by_cases hz : (l = 0 ∧ t = 0 ∧ r = 0 ∧ b = 0)
  · obtain ⟨h1, h2, h3, h4⟩ := hz
    subst h1; subst h2; subst h3; subst h4
    have hnoop : paddedCanvas img 0 0 0 0 = img := by
      unfold paddedCanvas add_padding
      rw [if_pos ⟨rfl, rfl, rfl, rfl⟩]
    rw [hnoop]; exact hmode
  · rw [paddedCanvas_eval img l t r b hmode hz]
    rfl

/-- `scaleBBox` on an all-integer box is the identity. -/
theorem scaleBBox_int (w h : ℕ) (z0 z1 z2 z3 : ℤ) :
    scaleBBox w h (PyNum.intVal z0) (PyNum.intVal z1) (PyNum.intVal z2) (PyNum.intVal z3)
      = ⟨z0, z1, z2, z3⟩ := by
  simp [scaleBBox, PyNum.isFloat, PyNum.toQ, pyTrunc_intCast]

/-- A 1-by-1 fully transparent RGBA image. -/
def clearImage1 : PImage := ⟨1, 1, Mode.RGBA, fun _ _ => Pixel.clear⟩

/-- A small RGB (no alpha band) content image. -/
def rgbContent : PImage := ⟨3, 2, Mode.RGB, fun _ _ => ⟨10, 20, 30, 255⟩⟩


/-- C6: for every outer box and content dimensions, `_center_image` returns
the box whose left edge is `outerLeft + (outerWidth - w) // 2`, whose top
edge is `outerTop + (outerHeight - h) // 2` (Python floor division), and
whose width and height are exactly the content dimensions, for all integer
inputs, including content larger than the outer box. -/
theorem center_image_spec (w h : ℕ) (box : BoxI) :
    (center_image w h box).l = box.l + Int.fdiv (box.r - box.l - w) 2 ∧
    (center_image w h box).t = box.t + Int.fdiv (box.b - box.t - h) 2 ∧
    (center_image w h box).r - (center_image w h box).l = w ∧
    (center_image w h box).b - (center_image w h box).t = h := by
  refine ⟨rfl, rfl, ?_, ?_⟩
  · show box.l + Int.fdiv (box.r - box.l + w) 2 - (box.l + Int.fdiv (box.r - box.l - w) 2)
      = (w : ℤ)
    rw [Int.fdiv_eq_ediv _ (by norm_num), Int.fdiv_eq_ediv _ (by norm_num)]
    omega
  · show box.t + Int.fdiv (box.b - box.t + h) 2 - (box.t + Int.fdiv (box.b - box.t - h) 2)
      = (h : ℤ)
    rw [Int.fdiv_eq_ediv _ (by norm_num), Int.fdiv_eq_ediv _ (by norm_num)]
    omega

/-- C9: `add_padding` never shrinks the canvas, for all integer arguments
(including negative ones): the post-call dimensions are at least the
pre-call dimensions. -/
theorem add_padding_never_shrinks (img : PImage) (l t r b : ℤ) :
    img.width ≤ (paddedCanvas img l t r b).width ∧
    img.height ≤ (paddedCanvas img l t r b).height := by
  unfold paddedCanvas
  rcases hcase : add_padding img l t r b with e | out
  · exact ⟨le_refl _, le_refl _⟩
  · unfold add_padding at hcase
    split at hcase
    · injection hcase with hh
      subst hh
      exact ⟨le_refl _, le_refl _⟩
    · split at hcase
      · injection hcase with hh
        subst hh
        constructor
        · show img.width ≤ newWidth img l r
          unfold newWidth
          omega
        · show img.height ≤ newHeight img t b
          unfold newHeight
          omega
      · cases hcase

/-- C4 counterexample: `add_padding(-1, 0, 0, 0)` has all four arguments
nonpositive, yet it is not a no-op: on a 1-by-1 transparent RGBA canvas the
dimensions stay 1-by-1 but the pixel is recomposited over the opaque white
background, changing the pixel data. -/
theorem add_padding_nonpositive_args_change_pixels :
    (-1 : ℤ) ≤ 0 ∧ (0 : ℤ) ≤ 0 ∧
    add_padding clearImage1 (-1) 0 0 0
      = Except.ok (paddedCanvas clearImage1 (-1) 0 0 0) ∧
    (paddedCanvas clearImage1 (-1) 0 0 0).width = 1 ∧
    (paddedCanvas clearImage1 (-1) 0 0 0).height = 1 ∧
    (paddedCanvas clearImage1 (-1) 0 0 0).pix 0 0 = Pixel.white ∧
    clearImage1.pix 0 0 = Pixel.clear ∧
    Pixel.white ≠ Pixel.clear := by
  refine ⟨by norm_num, le_refl 0, add_padding_eq_ok _ _ _ _ _ rfl, by decide, by decide,
    by decide, rfl, by decide⟩

/-- C4 (amended): `add_padding` takes its early-return no-op exactly when
all four arguments are zero (`add_padding(0,0,0,0)` leaves the canvas
object unchanged); for nonpositive arguments that are not all zero the
dimensions are still unchanged, but the buffer is replaced by the original
composited over an opaque white background. -/
theorem add_padding_zero_noop (img : PImage) (l t r b : ℤ)
    (hl : l ≤ 0) (ht : t ≤ 0) (hr : r ≤ 0) (hb : b ≤ 0) :
    add_padding img 0 0 0 0 = Except.ok img ∧
    (paddedCanvas img l t r b).width = img.width ∧
    (paddedCanvas img l t r b).height = img.height := by
  have hwidth : (paddedCanvas img l t r b).width = img.width := by
    by_cases hz : (l = 0 ∧ t = 0 ∧ r = 0 ∧ b = 0)
    · obtain ⟨h1, h2, h3, h4⟩ := hz
      subst h1; subst h2; subst h3; subst h4
      unfold paddedCanvas add_padding
      rw [if_pos ⟨rfl, rfl, rfl, rfl⟩]
    · by_cases hm : img.mode = Mode.RGBA
      · rw [paddedCanvas_eval img l t r b hm hz]
        show newWidth img l r = img.width
        unfold newWidth pasteShift grow
        rw [if_neg (by omega), if_neg (by omega)]
        omega
      · unfold paddedCanvas add_padding
        rw [if_neg hz, if_neg hm]
  have hheight : (paddedCanvas img l t r b).height = img.height := by
    by_cases hz : (l = 0 ∧ t = 0 ∧ r = 0 ∧ b = 0)
    · obtain ⟨h1, h2, h3, h4⟩ := hz
      subst h1; subst h2; subst h3; subst h4
      unfold paddedCanvas add_padding
      rw [if_pos ⟨rfl, rfl, rfl, rfl⟩]
    · by_cases hm : img.mode = Mode.RGBA
      · rw [paddedCanvas_eval img l t r b hm hz]
        show newHeight img t b = img.height
        unfold newHeight pasteShift grow
        rw [if_neg (by omega), if_neg (by omega)]
        omega
      · unfold paddedCanvas add_padding
        rw [if_neg hz, if_neg hm]
  refine ⟨?_, hwidth, hheight⟩
  unfold add_padding
  rw [if_pos ⟨rfl, rfl, rfl, rfl⟩]

/-- C4 witness: the amended statement at the concrete input
`add_padding(-1, 0, 0, 0)` on the transparent 1-by-1 canvas. -/
theorem add_padding_zero_noop_witness :
    add_padding clearImage1 0 0 0 0 = Except.ok clearImage1 ∧
    (paddedCanvas clearImage1 (-1) 0 0 0).width = clearImage1.width ∧
    (paddedCanvas clearImage1 (-1) 0 0 0).height = clearImage1.height :=
  add_padding_zero_noop clearImage1 (-1) 0 0 0 (by norm_num) (le_refl 0) (le_refl 0)
    (le_refl 0)

/-- C2 counterexample: `add_padding(1, 1, 0, 0)` on a 1-by-1 transparent
RGBA canvas grows the canvas to 2-by-2 as claimed, but the original content
does not appear unchanged at offset (1, 1): the transparent pixel is
composited over the opaque white background and comes out white. -/
theorem add_padding_transparent_pixel_not_preserved :
    (0 : ℤ) < 1 ∧ (0 : ℤ) ≤ 1 ∧
    add_padding clearImage1 1 1 0 0
      = Except.ok (paddedCanvas clearImage1 1 1 0 0) ∧
    (paddedCanvas clearImage1 1 1 0 0).width = 2 ∧
    (paddedCanvas clearImage1 1 1 0 0).height = 2 ∧
    (paddedCanvas clearImage1 1 1 0 0).pix 1 1 = Pixel.white ∧
    clearImage1.pix 0 0 = Pixel.clear ∧
    Pixel.white ≠ Pixel.clear := by
  refine ⟨by norm_num, by norm_num, add_padding_eq_ok _ _ _ _ _ rfl, by decide, by decide,
    by decide, rfl, by decide⟩

/-- C2 (amended): outside the all-zero no-op guard, on an RGBA canvas the
new width is `oldWidth + (left if left > 0 else 0) +
(right - oldWidth if right > oldWidth else 0)` and symmetrically for the
height; the new buffer is RGBA, every pixel outside the pasted region is
opaque white, and the original content is pasted at offset
`(left if left > 0 else 0, top if top > 0 else 0)` — a pasted pixel equals
the original exactly where the original pixel is fully opaque (transparent
pixels are composited over the white background, as the counterexample
forces). -/
theorem add_padding_growth_and_paste (img : PImage) (l t r b : ℤ)
    (hmode : img.mode = Mode.RGBA)
    (hnz : ¬(l = 0 ∧ t = 0 ∧ r = 0 ∧ b = 0)) :
    ((paddedCanvas img l t r b).width : ℤ)
        = img.width + (if 0 < l then l else 0)
          + (if (img.width : ℤ) < r then r - img.width else 0) ∧
    ((paddedCanvas img l t r b).height : ℤ)
        = img.height + (if 0 < t then t else 0)
          + (if (img.height : ℤ) < b then b - img.height else 0) ∧
    (paddedCanvas img l t r b).mode = Mode.RGBA ∧
    (∀ x y : ℕ, x < img.width → y < img.height →
      (img.pix x y).a = 255 → (img.pix x y).inRange →
      (paddedCanvas img l t r b).pix (x + pasteShift l) (y + pasteShift t)
        = img.pix x y) ∧
    (∀ x y : ℕ,
      ¬((pasteShift l : ℤ) ≤ x ∧ (x : ℤ) < pasteShift l + img.width ∧
        (pasteShift t : ℤ) ≤ y ∧ (y : ℤ) < pasteShift t + img.height) →
      (paddedCanvas img l t r b).pix x y = Pixel.white) := by
  rw [paddedCanvas_eval img l t r b hmode hnz]
  refine ⟨?_, ?_, rfl, ?_, ?_⟩
  · show ((newWidth img l r : ℕ) : ℤ) = _
    unfold newWidth
    push_cast [pasteShift_cast, grow_cast]
    ring
  · show ((newHeight img t b : ℕ) : ℤ) = _
    unfold newHeight
    push_cast [pasteShift_cast, grow_cast]
    ring
  · intro x y hxw hyh ha hrange
    show (pasteRegion _ img (pasteShift l) (pasteShift t) true).pix _ _ = _
    unfold pasteRegion
    dsimp only
    rw [if_pos (by refine ⟨?_, ?_, ?_, ?_⟩ <;> push_cast <;> omega)]
    have hx : (((x + pasteShift l : ℕ) : ℤ) - (pasteShift l : ℕ)).toNat = x := by
      push_cast
      omega
    have hy : (((y + pasteShift t : ℕ) : ℤ) - (pasteShift t : ℕ)).toNat = y := by
      push_cast
      omega
    rw [hx, hy]
    exact blend_opaque _ _ ha hrange
  · intro x y hcond
    show (pasteRegion _ img (pasteShift l) (pasteShift t) true).pix _ _ = _
    unfold pasteRegion
    dsimp only
    rw [if_neg hcond]
    rfl

/-- C2 witness: the amended statement at the concrete input
`add_padding(2, 3, 0, 0)` on a 1-by-1 opaque white canvas. -/
theorem add_padding_growth_and_paste_witness :
    (paddedCanvas (whiteImage 1 1) 2 3 0 0).width = 3 ∧
    (paddedCanvas (whiteImage 1 1) 2 3 0 0).height = 4 ∧
    (paddedCanvas (whiteImage 1 1) 2 3 0 0).mode = Mode.RGBA ∧
    (paddedCanvas (whiteImage 1 1) 2 3 0 0).pix 2 3 = (whiteImage 1 1).pix 0 0 ∧
    (paddedCanvas (whiteImage 1 1) 2 3 0 0).pix 0 0 = Pixel.white := by
  obtain ⟨hw, hh, hm, hpix, hout⟩ :=
    add_padding_growth_and_paste (whiteImage 1 1) 2 3 0 0 rfl (by norm_num)
  refine ⟨by decide, by decide, hm, ?_, ?_⟩
  · have h := hpix 0 0 (by decide) (by decide) rfl (by decide)
    simpa [pasteShift] using h
  · exact hout 0 0 (by simp [pasteShift])

/-- `draw_image` only looks at the box through `scaleBBox`. -/
theorem draw_image_scaleBBox_congr (canvas : PImage) (content : Pyme)
    (a0 a1 a2 a3 c0 c1 c2 c3 : PyNum)
    (hbox : scaleBBox canvas.width canvas.height a0 a1 a2 a3
      = scaleBBox canvas.width canvas.height c0 c1 c2 c3) :
    draw_image canvas content [a0, a1, a2, a3]
      = draw_image canvas content [c0, c1, c2, c3] := by
  unfold draw_image
  dsimp only
  rw [hbox]

/-- C5: when the first component of a 4-element box is a float, the whole
box is interpreted as fractions of the canvas dimensions: `draw_image`
proceeds with `(int(b0*width), int(b1*height), int(b2*width),
int(b3*height))` — horizontal components scaled by the canvas width,
vertical ones by the canvas height, each truncated toward zero — and
behaves exactly as if called with those integers; an all-integer box is
used as absolute pixels unchanged. -/
theorem draw_image_fractional_bbox (w h : ℕ) (q0 : ℚ) (n1 n2 n3 : PyNum)
    (z0 z1 z2 z3 : ℤ) :
    scaleBBox w h (PyNum.floatVal q0) n1 n2 n3
      = ⟨pyTrunc (q0 * w), pyTrunc (n1.toQ * h), pyTrunc (n2.toQ * w),
         pyTrunc (n3.toQ * h)⟩ ∧
    scaleBBox w h (PyNum.intVal z0) (PyNum.intVal z1) (PyNum.intVal z2) (PyNum.intVal z3)
      = ⟨z0, z1, z2, z3⟩ ∧
    (∀ (canvas : PImage) (content : Pyme),
      draw_image canvas content [PyNum.floatVal q0, n1, n2, n3]
        = draw_image canvas content
            [PyNum.intVal (pyTrunc (q0 * canvas.width)),
             PyNum.intVal (pyTrunc (n1.toQ * canvas.height)),
             PyNum.intVal (pyTrunc (n2.toQ * canvas.width)),
             PyNum.intVal (pyTrunc (n3.toQ * canvas.height))]) := by
  refine ⟨?_, scaleBBox_int w h z0 z1 z2 z3, ?_⟩
  · simp [scaleBBox, PyNum.isFloat, PyNum.toQ]
  · intro canvas content
    apply draw_image_scaleBBox_congr
    rw [scaleBBox_int]
    simp [scaleBBox, PyNum.isFloat, PyNum.toQ]

theorem draw_image_ne_invalid (canvas : PImage) (content : Pyme)
    (n0 n1 n2 n3 : PyNum) :
    draw_image canvas content [n0, n1, n2, n3] ≠ Except.error PymeErr.invalidArgument := by
  unfold draw_image
  dsimp only
  split
  · rcases hcase : add_padding canvas
      ((scaleBBox canvas.width canvas.height n0 n1 n2 n3).l.natAbs : ℤ)
      ((scaleBBox canvas.width canvas.height n0 n1 n2 n3).t.natAbs : ℤ)
      (scaleBBox canvas.width canvas.height n0 n1 n2 n3).r
      (scaleBBox canvas.width canvas.height n0 n1 n2 n3).b with e | out
    · intro hcontra
      injection hcontra with hbad
      cases hbad
    · intro hcontra
      cases hcontra
  · intro hcontra
    cases hcontra


/-- C7: both `draw_image` and `draw_text` raise the
`ValueError("Bounding box requires 4 arguments")` validation failure
exactly when the bounding box does not have 4 components (in particular for
lengths 3 and 5); no other input produces this error. -/
theorem bbox_length_validation (canvas : PImage) (content : Pyme) (bbox : List PyNum)
    (measure : String → ℕ × ℕ) (render : String → ℕ → ℕ → Pixel) (text : String) :
    (draw_image canvas content bbox = Except.error PymeErr.invalidArgument
      ↔ bbox.length ≠ 4) ∧
    (draw_text measure render canvas text bbox = Except.error PymeErr.invalidArgument
      ↔ bbox.length ≠ 4) := by
  match bbox with
  | [] => exact ⟨by simp [draw_image], by simp [draw_text]⟩
  | [a] => exact ⟨by simp [draw_image], by simp [draw_text]⟩
  | [a, b] => exact ⟨by simp [draw_image], by simp [draw_text]⟩
  | [a, b, c] => exact ⟨by simp [draw_image], by simp [draw_text]⟩
  | a :: b :: c :: d :: e :: rest =>
    constructor
    · simp only [draw_image, List.length_cons]
      constructor
      · intro _; omega
      · intro _; trivial
    · simp only [draw_text, List.length_cons]
      constructor
      · intro _; omega
      · intro _; trivial
  | [a, b, c, d] =>
    constructor
    · simp only [List.length_cons, List.length_nil]
      constructor
      · intro hcontra
        exact absurd hcontra (draw_image_ne_invalid canvas content a b c d)
      · intro hlen
        exfalso
        omega
    · simp only [List.length_cons, List.length_nil]
      constructor
      · intro hcontra
        exfalso
        unfold draw_text at hcontra
        dsimp only at hcontra
        rcases hcase : draw_image canvas
            (Pyme.mk ⟨(measure text).1, (measure text).2, Mode.RGBA, render text⟩)
            [a, b, c, d] with e | out
        · rw [hcase] at hcontra
          injection hcontra with hbad
          rw [hbad] at hcase
          exact draw_image_ne_invalid canvas _ a b c d hcase
        · rw [hcase] at hcontra
          cases hcontra
      · intro hlen
        exfalso
        omega

/-- C3: for a canvas with positive dimensions and a positive target size,
`resize(size, keep_ratio=True)` scales both dimensions by the smaller of
the two quotients `size[0]/width` and `size[1]/height` (truncation toward
zero applied once per axis), so the result fits within `size` on both axes,
at least one axis matches `size` exactly, and both match when the quotients
are equal. -/
theorem resize_keep_aspect_fits (img : PImage) (s0 s1 : ℤ)
    (hw : 0 < img.width) (hh : 0 < img.height) (h0 : 0 < s0) (h1 : 0 < s1) :
    (((Pyme.mk img).resize (s0, s1) true)._image.width : ℤ) ≤ s0 ∧
    (((Pyme.mk img).resize (s0, s1) true)._image.height : ℤ) ≤ s1 ∧
    ((((Pyme.mk img).resize (s0, s1) true)._image.width : ℤ) = s0 ∨
      (((Pyme.mk img).resize (s0, s1) true)._image.height : ℤ) = s1) ∧
    (((Pyme.mk img).resize (s0, s1) true)._image.width : ℤ)
      = pyTrunc ((img.width : ℚ) * min ((s0 : ℚ) / img.width) ((s1 : ℚ) / img.height)) ∧
    (((Pyme.mk img).resize (s0, s1) true)._image.height : ℤ)
      = pyTrunc ((img.height : ℚ) * min ((s0 : ℚ) / img.width) ((s1 : ℚ) / img.height)) ∧
    ((s0 : ℚ) / img.width = (s1 : ℚ) / img.height →
      (((Pyme.mk img).resize (s0, s1) true)._image.width : ℤ) = s0 ∧
      (((Pyme.mk img).resize (s0, s1) true)._image.height : ℤ) = s1) := by
  obtain ⟨hle0, hle1, hor, hn0, hn1, hf0, hf1, heq⟩ :=
    keepRatioSize_spec img.width img.height s0 s1 hw hh h0 h1
  have hwidth : ((Pyme.mk img).resize (s0, s1) true)._image.width
      = (keepRatioSize img.width img.height s0 s1).1.toNat := rfl
  have hheight : ((Pyme.mk img).resize (s0, s1) true)._image.height
      = (keepRatioSize img.width img.height s0 s1).2.toNat := rfl
  have hcast0 : (((Pyme.mk img).resize (s0, s1) true)._image.width : ℤ)
      = (keepRatioSize img.width img.height s0 s1).1 := by
    rw [hwidth]; exact Int.toNat_of_nonneg hn0
  have hcast1 : (((Pyme.mk img).resize (s0, s1) true)._image.height : ℤ)
      = (keepRatioSize img.width img.height s0 s1).2 := by
    rw [hheight]; exact Int.toNat_of_nonneg hn1
  rw [hcast0, hcast1]
  refine ⟨hle0, hle1, hor, hf0, hf1, heq⟩

/-- C3 witness: a 30-by-20 image resized into a 60-by-60 box with ratio
preserved: the result fits within the box, with the width axis matching
exactly. -/
theorem resize_keep_aspect_fits_witness :
    (((Pyme.mk (whiteImage 30 20)).resize ((60 : ℤ), (60 : ℤ)) true)._image.width : ℤ) ≤ 60 ∧
    (((Pyme.mk (whiteImage 30 20)).resize ((60 : ℤ), (60 : ℤ)) true)._image.height : ℤ) ≤ 60 ∧
    ((((Pyme.mk (whiteImage 30 20)).resize ((60 : ℤ), (60 : ℤ)) true)._image.width : ℤ) = 60 ∨
      (((Pyme.mk (whiteImage 30 20)).resize ((60 : ℤ), (60 : ℤ)) true)._image.height : ℤ) = 60) := by
  obtain ⟨h1, h2, h3, _⟩ :=
    resize_keep_aspect_fits (whiteImage 30 20) 60 60 (by decide) (by decide)
      (by norm_num) (by norm_num)
  exact ⟨h1, h2, h3⟩

/-- C8: with an RGBA canvas, every `draw_image` call on a 4-element box
reaches the paste step (`pasteStep`), which first tries the self-masked
paste; the masked paste raises exactly when the (resized) content lacks an
alpha band, in which case — and only then — the paste is retried once
without a mask, the failure being swallowed. -/
theorem draw_image_paste_mask_fallback (canvas content : PImage)
    (n0 n1 n2 n3 : PyNum) (hmode : canvas.mode = Mode.RGBA) :
    draw_image canvas (Pyme.mk content) [n0, n1, n2, n3] =
      Except.ok
        (drawRest (drawCanvas1 canvas (scaleBBox canvas.width canvas.height n0 n1 n2 n3))
          content (scaleBBox canvas.width canvas.height n0 n1 n2 n3),
         Pyme.mk content) ∧
    (∀ (bg : PImage) (box : BoxI) (dx dy : ℤ),
      (pasteMaskedE bg (drawResized content box) dx dy = Except.error ()
        ↔ content.mode ≠ Mode.RGBA) ∧
      (content.mode = Mode.RGBA →
        pasteStep bg (drawResized content box) dx dy
          = pasteRegion bg (drawResized content box) dx dy true) ∧
      (content.mode ≠ Mode.RGBA →
        pasteStep bg (drawResized content box) dx dy
          = pasteRegion bg (drawResized content box) dx dy false)) := by
  constructor
  · exact draw_image_eq canvas (Pyme.mk content) n0 n1 n2 n3 hmode
  · intro bg box dx dy
    have hrm : (drawResized content box).mode = content.mode := rfl
    unfold pasteStep pasteMaskedE
    rw [hrm]
    by_cases hc : content.mode = Mode.RGBA
    · rw [if_pos hc]
      refine ⟨?_, fun _ => rfl, fun hcontra => absurd hc hcontra⟩
      constructor
      · intro hbad
        cases hbad
      · intro hne
        exact absurd hc hne
    · rw [if_neg hc]
      refine ⟨?_, fun hcontra => absurd hcontra hc, fun _ => rfl⟩
      exact ⟨fun _ => hc, fun _ => rfl⟩

/-- C8 witness: the fallback characterisation at a concrete RGB content
image (no alpha band) drawn onto a concrete RGBA canvas. -/
theorem draw_image_paste_mask_fallback_witness :
    (pasteMaskedE (whiteImage 5 5) (drawResized rgbContent ⟨0, 0, 4, 4⟩) 0 0
        = Except.error () ↔ rgbContent.mode ≠ Mode.RGBA) ∧
    (rgbContent.mode ≠ Mode.RGBA →
      pasteStep (whiteImage 5 5) (drawResized rgbContent ⟨0, 0, 4, 4⟩) 0 0
        = pasteRegion (whiteImage 5 5) (drawResized rgbContent ⟨0, 0, 4, 4⟩) 0 0 false) := by
  obtain ⟨hiff, _, hfb⟩ :=
    (draw_image_paste_mask_fallback (whiteImage 100 100) rgbContent
      (PyNum.intVal 0) (PyNum.intVal 0) (PyNum.intVal 4) (PyNum.intVal 4) rfl).2
      (whiteImage 5 5) ⟨0, 0, 4, 4⟩ 0 0
  exact ⟨hiff, hfb⟩

/-- C10: `draw_image` never mutates the content object passed to it: the
resize happens through a fresh wrapper around a new image, so the
caller-side content after any successful call has identical dimensions
and pixel data. -/
theorem draw_image_preserves_content (canvas : PImage) (content : Pyme)
    (bbox : List PyNum) (out : PImage) (cb : Pyme)
    (hok : draw_image canvas content bbox = Except.ok (out, cb)) :
    cb._image.width = content._image.width ∧
    cb._image.height = content._image.height ∧
    (∀ x y : ℕ, cb._image.pix x y = content._image.pix x y) := by
  have hcb : cb = content := by
    match bbox with
    | [] => cases hok
    | [a] => cases hok
    | [a, b] => cases hok
    | [a, b, c] => cases hok
    | a :: b :: c :: d :: e :: rest => cases hok
    | [a, b, c, d] =>
      unfold draw_image at hok
      dsimp only at hok
      split at hok
      · split at hok
        · injection hok with hpr
          exact (congrArg Prod.snd hpr).symm
        · cases hok
      · injection hok with hpr
        exact (congrArg Prod.snd hpr).symm
  rw [hcb]
  exact ⟨rfl, rfl, fun _ _ => rfl⟩

/-- C10 witness: a successful concrete call handing back the very content
object that was passed in. -/
theorem draw_image_preserves_content_witness :
    (Pyme.mk rgbContent)._image.width = (Pyme.mk rgbContent)._image.width ∧
    (Pyme.mk rgbContent)._image.height = (Pyme.mk rgbContent)._image.height ∧
    (∀ x y : ℕ, (Pyme.mk rgbContent)._image.pix x y
      = (Pyme.mk rgbContent)._image.pix x y) :=
  draw_image_preserves_content (whiteImage 100 100) (Pyme.mk rgbContent)
    [PyNum.intVal 0, PyNum.intVal 0, PyNum.intVal 4, PyNum.intVal 4]
    (drawRest
      (drawCanvas1 (whiteImage 100 100)
        (scaleBBox (whiteImage 100 100).width (whiteImage 100 100).height
          (PyNum.intVal 0) (PyNum.intVal 0) (PyNum.intVal 4) (PyNum.intVal 4)))
      rgbContent
      (scaleBBox (whiteImage 100 100).width (whiteImage 100 100).height
        (PyNum.intVal 0) (PyNum.intVal 0) (PyNum.intVal 4) (PyNum.intVal 4)))
    (Pyme.mk rgbContent)
    (draw_image_eq (whiteImage 100 100) (Pyme.mk rgbContent)
      (PyNum.intVal 0) (PyNum.intVal 0) (PyNum.intVal 4) (PyNum.intVal 4) rfl)

/-- C1: whenever an (integer) box edge falls outside the canvas, an RGBA
`draw_image` call pads the canvas first via
`add_padding(abs(left), abs(top), right, bottom)` — right/bottom passed
through absolutely — and the padding is nevertheless correct: the padded
width/height follow the growth formula, cover the requested right/bottom
edges and the absolute left/top overflow, the drawn result keeps the padded
dimensions, and the content is resized ratio-preserving to fit the
`(right - left, bottom - top)` box. -/
theorem draw_image_out_of_bounds_pads (canvas content : PImage) (b0 b1 b2 b3 : ℤ)
    (hmode : canvas.mode = Mode.RGBA)
    (hout : b0 < 0 ∨ b1 < 0 ∨ (canvas.width : ℤ) < b2 ∨ (canvas.height : ℤ) < b3)
    (hcw : 0 < content.width) (hch : 0 < content.height)
    (hs0 : 0 < b2 - b0) (hs1 : 0 < b3 - b1) :
    add_padding canvas (b0.natAbs : ℤ) (b1.natAbs : ℤ) b2 b3
      = Except.ok (paddedCanvas canvas (b0.natAbs : ℤ) (b1.natAbs : ℤ) b2 b3) ∧
    (draw_image canvas (Pyme.mk content)
        [PyNum.intVal b0, PyNum.intVal b1, PyNum.intVal b2, PyNum.intVal b3]).map
          (fun pr => (pr.1.width, pr.1.height))
      = Except.ok
          ((paddedCanvas canvas (b0.natAbs : ℤ) (b1.natAbs : ℤ) b2 b3).width,
           (paddedCanvas canvas (b0.natAbs : ℤ) (b1.natAbs : ℤ) b2 b3).height) ∧
    ((paddedCanvas canvas (b0.natAbs : ℤ) (b1.natAbs : ℤ) b2 b3).width : ℤ)
      = (canvas.width : ℤ) + (if 0 < (b0.natAbs : ℤ) then (b0.natAbs : ℤ) else 0)
        + (if (canvas.width : ℤ) < b2 then b2 - canvas.width else 0) ∧
    ((paddedCanvas canvas (b0.natAbs : ℤ) (b1.natAbs : ℤ) b2 b3).height : ℤ)
      = (canvas.height : ℤ) + (if 0 < (b1.natAbs : ℤ) then (b1.natAbs : ℤ) else 0)
        + (if (canvas.height : ℤ) < b3 then b3 - canvas.height else 0) ∧
    b2 ≤ ((paddedCanvas canvas (b0.natAbs : ℤ) (b1.natAbs : ℤ) b2 b3).width : ℤ) ∧
    b3 ≤ ((paddedCanvas canvas (b0.natAbs : ℤ) (b1.natAbs : ℤ) b2 b3).height : ℤ) ∧
    (b0 < 0 → (canvas.width : ℤ) + (-b0)
      ≤ ((paddedCanvas canvas (b0.natAbs : ℤ) (b1.natAbs : ℤ) b2 b3).width : ℤ)) ∧
    (b1 < 0 → (canvas.height : ℤ) + (-b1)
      ≤ ((paddedCanvas canvas (b0.natAbs : ℤ) (b1.natAbs : ℤ) b2 b3).height : ℤ)) ∧
    ((drawResized content ⟨b0, b1, b2, b3⟩).width : ℤ) ≤ b2 - b0 ∧
    ((drawResized content ⟨b0, b1, b2, b3⟩).height : ℤ) ≤ b3 - b1 ∧
    (((drawResized content ⟨b0, b1, b2, b3⟩).width : ℤ) = b2 - b0 ∨
      ((drawResized content ⟨b0, b1, b2, b3⟩).height : ℤ) = b3 - b1) := by
  have hbox : scaleBBox canvas.width canvas.height
      (PyNum.intVal b0) (PyNum.intVal b1) (PyNum.intVal b2) (PyNum.intVal b3)
      = ⟨b0, b1, b2, b3⟩ := scaleBBox_int _ _ _ _ _ _
  have hneeds : needs_padding canvas ⟨b0, b1, b2, b3⟩ := hout
  have hpw : ((paddedCanvas canvas (b0.natAbs : ℤ) (b1.natAbs : ℤ) b2 b3).width : ℤ)
      = (canvas.width : ℤ) + (if 0 < (b0.natAbs : ℤ) then (b0.natAbs : ℤ) else 0)
        + (if (canvas.width : ℤ) < b2 then b2 - canvas.width else 0) := by
    rw [paddedCanvas_width _ _ _ _ _ hmode]
    unfold newWidth
    push_cast [pasteShift_cast, grow_cast]
    ring
  have hph : ((paddedCanvas canvas (b0.natAbs : ℤ) (b1.natAbs : ℤ) b2 b3).height : ℤ)
      = (canvas.height : ℤ) + (if 0 < (b1.natAbs : ℤ) then (b1.natAbs : ℤ) else 0)
        + (if (canvas.height : ℤ) < b3 then b3 - canvas.height else 0) := by
    rw [paddedCanvas_height _ _ _ _ _ hmode]
    unfold newHeight
    push_cast [pasteShift_cast, grow_cast]
    ring
  obtain ⟨hle0, hle1, hor, hn0, hn1, _, _, _⟩ :=
    keepRatioSize_spec content.width content.height (b2 - b0) (b3 - b1) hcw hch hs0 hs1
  have hrw : ((drawResized content ⟨b0, b1, b2, b3⟩).width : ℤ)
      = (keepRatioSize content.width content.height (b2 - b0) (b3 - b1)).1 :=
    Int.toNat_of_nonneg hn0
  have hrh : ((drawResized content ⟨b0, b1, b2, b3⟩).height : ℤ)
      = (keepRatioSize content.width content.height (b2 - b0) (b3 - b1)).2 :=
    Int.toNat_of_nonneg hn1
  refine ⟨add_padding_eq_ok _ _ _ _ _ hmode, ?_, hpw, hph, ?_, ?_, ?_, ?_, ?_, ?_, ?_⟩
  · rw [draw_image_eq _ _ _ _ _ _ hmode, hbox]
    show Except.ok ((drawRest (drawCanvas1 canvas ⟨b0, b1, b2, b3⟩) content ⟨b0, b1, b2, b3⟩).width,
        (drawRest (drawCanvas1 canvas ⟨b0, b1, b2, b3⟩) content ⟨b0, b1, b2, b3⟩).height) = _
    rw [drawRest_width, drawRest_height]
    unfold drawCanvas1
    rw [if_pos hneeds]
  · rw [hpw]
    split_ifs <;> omega
  · rw [hph]
    split_ifs <;> omega
  · intro hneg
    rw [hpw]
    split_ifs <;> omega
  · intro hneg
    rw [hph]
    split_ifs <;> omega
  · rw [hrw]; exact hle0
  · rw [hrh]; exact hle1
  · rw [hrw, hrh]; exact hor

/-- C1 witness: on a 100-by-100 opaque canvas,
`draw_image(someImage, (-10, -10, 50, 50))` pads the canvas to exactly
110-by-110 and draws the content resized ratio-preserving into a 60-by-60
box. -/
theorem draw_image_out_of_bounds_pads_witness :
    (paddedCanvas (whiteImage 100 100) ((-10 : ℤ).natAbs : ℤ) ((-10 : ℤ).natAbs : ℤ) 50 50).width = 110 ∧
    (paddedCanvas (whiteImage 100 100) ((-10 : ℤ).natAbs : ℤ) ((-10 : ℤ).natAbs : ℤ) 50 50).height = 110 ∧
    (draw_image (whiteImage 100 100) (Pyme.mk (whiteImage 30 20))
        [PyNum.intVal (-10), PyNum.intVal (-10), PyNum.intVal 50, PyNum.intVal 50]).map
          (fun pr => (pr.1.width, pr.1.height)) = Except.ok (110, 110) ∧
    ((drawResized (whiteImage 30 20) ⟨-10, -10, 50, 50⟩).width : ℤ) ≤ 60 ∧
    ((drawResized (whiteImage 30 20) ⟨-10, -10, 50, 50⟩).height : ℤ) ≤ 60 := by
  obtain ⟨h1, h2, h3, h4, h5, h6, h7, h8, h9, h10, h11⟩ :=
    draw_image_out_of_bounds_pads (whiteImage 100 100) (whiteImage 30 20)
      (-10) (-10) 50 50 rfl (Or.inl (by norm_num)) (by decide) (by decide)
      (by norm_num) (by norm_num)
  have hww : (paddedCanvas (whiteImage 100 100) ((-10 : ℤ).natAbs : ℤ)
      ((-10 : ℤ).natAbs : ℤ) 50 50).width = 110 := by decide
  have hhh : (paddedCanvas (whiteImage 100 100) ((-10 : ℤ).natAbs : ℤ)
      ((-10 : ℤ).natAbs : ℤ) 50 50).height = 110 := by decide
  refine ⟨hww, hhh, ?_, by omega, by omega⟩
  rw [h2, hww, hhh]
